import Mathlib

/-!
Verification of the AVIF converter's encoding core against its specification.

The Rust sources are shallowly embedded: machine integers become `Nat`/`Int`
(with explicit saturation where a Rust cast saturates), `f32` arithmetic is
modelled over `ℚ`, fallible code returns `Except`, and the external
collaborators (the rav1e AV1 codec, the avif-serialize packager, the
`image`-crate overlay compositor, and the missing `alpha` module) are
universally-quantified parameters so that every theorem holds for any
behaviour of those collaborators.
-/

namespace AvifConverter

/-- One RGBA pixel, as in the rgb crate's RGBA with u8 components (alpha last). -/
structure Rgba where
  r : Nat
  g : Nat
  b : Nat
  a : Nat
deriving DecidableEq

/-- One RGB pixel (rgb crate RGB8). -/
structure Rgb where
  r : Nat
  g : Nat
  b : Nat
deriving DecidableEq

/-- RGBA::rgb() drops the alpha component. -/
def Rgba.rgb (px : Rgba) : Rgb :=
  ⟨px.r, px.g, px.b⟩

/-! ## Transparency fast-path scanner (encode.rs, check_transparent_pixel) -/

/-- Splits the first n full 32-sample blocks off a list, as the SIMD middle
part of a slice is traversed 32 lanes at a time. -/
def chunksOf32 : Nat → List Nat → List (List Nat)
  | 0, _ => []
  | n + 1, l => l.take 32 :: chunksOf32 n (l.drop 32)

/-- Model of slice::as_simd::<32> on a byte slice: the slice splits into an
unaligned head, a run of aligned 32-lane blocks, and a tail shorter than 32.
The head length is determined by the allocation address (0..31 bytes to the
next 32-byte boundary, capped by the slice length); it is passed in as the
parameter off. -/
def as_simd (off : Nat) (l : List Nat) : List Nat × List (List Nat) × List Nat :=
  let headLen := min off l.length
  let rest := l.drop headLen
  let m := rest.length / 32
  (l.take headLen, chunksOf32 m rest, rest.drop (32 * m))

/-- Encoder::check_transparent_pixel from encode.rs: isolates the alpha
channel, takes the aligned middle of as_simd, and compares every 32-lane
block against u8x32::splat(255).  Only the middle blocks are inspected. -/
def check_transparent_pixel (off : Nat) (image : List Rgba) : Bool :=
  let pixel_alpha := image.map (fun pixel => pixel.a)
  let sd := (as_simd off pixel_alpha).2.1
  sd.all (fun pixel => pixel == List.replicate 32 255)

/-- The naive per-pixel scan the specification demands parity with:
seq.iter().all(|a| a == 255). -/
def naive_opaque_scan (image : List Rgba) : Bool :=
  (image.map (fun pixel => pixel.a)).all (fun a => a == 255)

/-! ## Quality-to-quantizer mapping (encode.rs, quality_to_quantizer) -/

/-- quality_to_quantizer from encode.rs.  The f32 arithmetic is modelled over
ℚ; the final `as u8` cast saturates into 0..=255 as in Rust. -/
def quality_to_quantizer (quality : ℚ) : ℕ :=
  let q := quality / 100
  let x : ℚ :=
    if 85 / 100 ≤ q then (1 - q) * 3
    else if 1 / 4 < q then 1 - 1 / 8 - q / 2
    else 1 - q
  (max 0 (min 255 (round (x * 255)))).toNat

/-- Evaluation lemma: the quantizer at quality 55, the low_quality threshold
used by SpeedTweaks::from_my_preset. -/
theorem quality_to_quantizer_55 : quality_to_quantizer 55 = 153 := by
  norm_num [quality_to_quantizer, round_eq]
  rfl

/-- Evaluation lemma: the quantizer at quality 80, the high_quality threshold
used by SpeedTweaks::from_my_preset. -/
theorem quality_to_quantizer_80 : quality_to_quantizer 80 = 121 := by
  norm_num [quality_to_quantizer, round_eq]
  rfl

theorem quality_to_quantizer_100 : quality_to_quantizer 100 = 0 := by
  norm_num [quality_to_quantizer, round_eq]

theorem quality_to_quantizer_1 : quality_to_quantizer 1 = 252 := by
  norm_num [quality_to_quantizer, round_eq]
  rfl

/-- C2: quality_to_quantizer is monotone non-increasing on [1, 100], quality
100 gives the minimum quantizer 0, and quality 1 gives 252 (near 255). -/
theorem quality_to_quantizer_monotone (q1 q2 : ℚ)
    (h1 : 1 ≤ q1) (h2 : q2 ≤ 100) (hlt : q1 < q2) :
    quality_to_quantizer q2 ≤ quality_to_quantizer q1 ∧
      quality_to_quantizer 100 = 0 ∧ quality_to_quantizer 1 = 252 := by
  refine ⟨?_, quality_to_quantizer_100, quality_to_quantizer_1⟩
  unfold quality_to_quantizer
  set a := q1 / 100 with ha
  set b := q2 / 100 with hb
  have hab : a < b := by
    rw [ha, hb]
    exact div_lt_div_of_pos_right hlt (by norm_num)
  have hxle :
      (if 85 / 100 ≤ b then (1 - b) * 3
        else if 1 / 4 < b then 1 - 1 / 8 - b / 2 else 1 - b) ≤
      (if 85 / 100 ≤ a then (1 - a) * 3
        else if 1 / 4 < a then 1 - 1 / 8 - a / 2 else 1 - a) := by
    split_ifs <;> linarith
  have hfl : round ((if 85 / 100 ≤ b then (1 - b) * 3
      else if 1 / 4 < b then 1 - 1 / 8 - b / 2 else 1 - b) * 255) ≤
      round ((if 85 / 100 ≤ a then (1 - a) * 3
        else if 1 / 4 < a then 1 - 1 / 8 - a / 2 else 1 - a) * 255) := by
    rw [round_eq, round_eq]
    exact Int.floor_le_floor (by nlinarith)
  exact Int.toNat_le_toNat (max_le_max le_rfl (min_le_min le_rfl hfl))

/-- Closed witness for quality_to_quantizer_monotone at 30 < 90. -/
theorem quality_to_quantizer_monotone_witness :
    quality_to_quantizer 90 ≤ quality_to_quantizer 30 ∧
      quality_to_quantizer 100 = 0 ∧ quality_to_quantizer 1 = 252 :=
  quality_to_quantizer_monotone 30 90 (by norm_num) (by norm_num) (by norm_num)

/-- C1: the SIMD scan is NOT equivalent to the naive per-pixel scan.  A
single pixel with alpha 0 (for any alignment the head and tail of as_simd
are ignored; with offset 0 shown here) is reported fully opaque by
check_transparent_pixel, while the naive scan seq.iter().all(|a| a == 255)
reports false.  The encoder therefore silently discards the alpha channel
of any transparent image shorter than a full 32-sample block. -/
theorem check_transparent_pixel_misses_short_input :
    check_transparent_pixel 0 [⟨0, 0, 0, 0⟩] = true ∧
      naive_opaque_scan [⟨0, 0, 0, 0⟩] = false := by
  decide

/-! ## Speed/quality parameter mapper (encode.rs, SpeedTweaks) -/

/-- SpeedTweaks from encode.rs: the derived per-plane-set speed profile. -/
structure SpeedTweaks where
  speed_preset : ℕ
  fast_deblock : Option Bool
  reduced_tx_set : Option Bool
  tx_domain_distortion : Option Bool
  tx_domain_rate : Option Bool
  encode_bottomup : Option Bool
  rdo_tx_decision : Option Bool
  cdef : Option Bool
  lrf : Option Bool
  sgr_complexity_full : Option Bool
  use_satd_subpel : Option Bool
  inter_tx_split : Option Bool
  fine_directional_intra : Option Bool
  complex_prediction_modes : Option Bool
  partition_range : Option (ℕ × ℕ)
  min_tile_size : ℕ
deriving DecidableEq

/-- SpeedTweaks::from_my_preset from encode.rs.  The ordered Rust match with
guards on partition_range is rendered as nested conditionals in the same
order; quantizer is the u8 quantizer (0..=255). -/
def SpeedTweaks.from_my_preset (speed quantizer : ℕ) : SpeedTweaks :=
  let low_quality : Bool := decide (quantizer < quality_to_quantizer 55)
  let high_quality : Bool := decide (quality_to_quantizer 80 < quantizer)
  let max_block_size : ℕ := if high_quality then 16 else 64
  { speed_preset := speed
    partition_range := some
      (if speed = 0 then (4, min 64 max_block_size)
       else if speed = 1 ∧ low_quality = true then (4, min 64 max_block_size)
       else if speed = 2 ∧ low_quality = true then (4, min 32 max_block_size)
       else if 1 ≤ speed ∧ speed ≤ 4 then (4, 16)
       else if 5 ≤ speed ∧ speed ≤ 8 then (8, 16)
       else (16, 16))
    complex_prediction_modes := some (decide (speed ≤ 1))
    sgr_complexity_full := some (decide (speed ≤ 2))
    encode_bottomup := some (decide (speed ≤ 2))
    rdo_tx_decision := some (decide (speed ≤ 4) && !high_quality)
    reduced_tx_set := some (decide (speed = 4) || decide (9 ≤ speed))
    fine_directional_intra := some (decide (speed ≤ 6))
    fast_deblock := some (decide (7 ≤ speed) && !high_quality)
    lrf := some (low_quality && decide (speed ≤ 8))
    cdef := some (low_quality && decide (speed ≤ 9))
    inter_tx_split := some (decide (9 ≤ speed))
    tx_domain_rate := some (decide (10 ≤ speed))
    tx_domain_distortion := none
    use_satd_subpel := some false
    min_tile_size :=
      (match speed with
        | 0 => 4096
        | 1 => 2048
        | 2 => 1024
        | 3 => 512
        | 4 => 256
        | _ => 128) * (if high_quality then 2 else 1) }

/-- Geometric-by-speed minimum tile size table of the specification. -/
def minTileTable : ℕ → ℕ
  | 0 => 4096
  | 1 => 2048
  | 2 => 1024
  | 3 => 512
  | 4 => 256
  | _ => 128

/-- C8: for every speed 1..=10 and quantizer 0..=255 the minimum tile size is
the geometric table value, doubled exactly when the quantizer indicates high
quality (quantizer above quality_to_quantizer 80 = 121). -/
theorem min_tile_size_follows_table (speed quantizer : ℕ)
    (hs1 : 1 ≤ speed) (hs2 : speed ≤ 10) (hq : quantizer ≤ 255) :
    (SpeedTweaks.from_my_preset speed quantizer).min_tile_size =
      minTileTable speed *
        (if quality_to_quantizer 80 < quantizer then 2 else 1) := by
  unfold SpeedTweaks.from_my_preset minTileTable
  rcases Nat.lt_or_ge quantizer 122 with h | h <;>
    simp [quality_to_quantizer_80, Nat.lt_iff_add_one_le, h]

/-- Closed witness for min_tile_size_follows_table at speed 3, quantizer 200. -/
theorem min_tile_size_follows_table_witness :
    (SpeedTweaks.from_my_preset 3 200).min_tile_size =
      minTileTable 3 * (if quality_to_quantizer 80 < 200 then 2 else 1) :=
  min_tile_size_follows_table 3 200 (by decide) (by decide) (by decide)

/-- rav1e block sizes reachable from speed_settings' sz helper. -/
inductive BlockSize
  | BLOCK_4X4
  | BLOCK_8X8
  | BLOCK_16X16
  | BLOCK_32X32
  | BLOCK_64X64
  | BLOCK_128X128
deriving DecidableEq

inductive SceneDetectionSpeed
  | noDetection
  | fast
  | standard
deriving DecidableEq

inductive SGRComplexityLevel
  | Full
  | Reduced
deriving DecidableEq

inductive PredictionModesSetting
  | Simple
  | ComplexAll
deriving DecidableEq

/-- rav1e SpeedSettings, restricted to the fields speed_settings() touches;
the nested motion/transform/partition/prediction sub-structures are
flattened into prefixed field names. -/
structure SpeedSettings where
  multiref : Bool
  rdo_lookahead_frames : ℕ
  scene_detection_mode : SceneDetectionSpeed
  motion_include_near_mvs : Bool
  fast_deblock : Bool
  reduced_tx_set : Bool
  tx_domain_distortion : Bool
  tx_domain_rate : Bool
  encode_bottomup : Bool
  rdo_tx_decision : Bool
  cdef : Bool
  lrf : Bool
  enable_inter_tx_split : Bool
  sgr_complexity : SGRComplexityLevel
  use_satd_subpel : Bool
  fine_directional_intra : Bool
  prediction_modes : PredictionModesSetting
  partition_range : BlockSize × BlockSize
deriving DecidableEq

/-- The sz helper inside SpeedTweaks::speed_settings; the `bad size` panic is
modelled as none. -/
def sz : ℕ → Option BlockSize
  | 4 => some BlockSize.BLOCK_4X4
  | 8 => some BlockSize.BLOCK_8X8
  | 16 => some BlockSize.BLOCK_16X16
  | 32 => some BlockSize.BLOCK_32X32
  | 64 => some BlockSize.BLOCK_64X64
  | 128 => some BlockSize.BLOCK_128X128
  | _ => none

/-- SpeedTweaks::speed_settings from encode.rs.  SpeedSettings::from_preset
is an external rav1e function, passed in as from_preset; the
assert!(min <= max) and the sz panic are modelled as none. -/
def SpeedTweaks.speed_settings (t : SpeedTweaks)
    (from_preset : ℕ → SpeedSettings) : Option SpeedSettings :=
  let s := from_preset t.speed_preset
  let s := { s with multiref := false, rdo_lookahead_frames := 1,
                    scene_detection_mode := SceneDetectionSpeed.noDetection,
                    motion_include_near_mvs := false }
  let s := match t.fast_deblock with | some v => { s with fast_deblock := v } | none => s
  let s := match t.reduced_tx_set with | some v => { s with reduced_tx_set := v } | none => s
  let s := match t.tx_domain_distortion with | some v => { s with tx_domain_distortion := v } | none => s
  let s := match t.tx_domain_rate with | some v => { s with tx_domain_rate := v } | none => s
  let s := match t.encode_bottomup with | some v => { s with encode_bottomup := v } | none => s
  let s := match t.rdo_tx_decision with | some v => { s with rdo_tx_decision := v } | none => s
  let s := match t.cdef with | some v => { s with cdef := v } | none => s
  let s := match t.lrf with | some v => { s with lrf := v } | none => s
  let s := match t.inter_tx_split with | some v => { s with enable_inter_tx_split := v } | none => s
  let s := match t.sgr_complexity_full with
    | some v => { s with sgr_complexity :=
        if v then SGRComplexityLevel.Full else SGRComplexityLevel.Reduced }
    | none => s
  let s := match t.use_satd_subpel with | some v => { s with use_satd_subpel := v } | none => s
  let s := match t.fine_directional_intra with | some v => { s with fine_directional_intra := v } | none => s
  let s := match t.complex_prediction_modes with
    | some v => { s with prediction_modes :=
        if v then PredictionModesSetting.ComplexAll else PredictionModesSetting.Simple }
    | none => s
  match t.partition_range with
  | none => some s
  | some (mn, mx) =>
    if mn ≤ mx then
      match sz mn, sz mx with
      | some bmn, some bmx => some { s with partition_range := (bmn, bmx) }
      | _, _ => none
    else none

/-- If the partition range is well formed, speed_settings cannot hit the
assert or the sz panic, whatever the rav1e preset base is. -/
theorem speed_settings_isSome_of_valid (t : SpeedTweaks)
    (from_preset : ℕ → SpeedSettings) (mn mx : ℕ)
    (hpr : t.partition_range = some (mn, mx)) (hle : mn ≤ mx)
    (hmn : (sz mn).isSome = true) (hmx : (sz mx).isSome = true) :
    (t.speed_settings from_preset).isSome = true := by
  unfold SpeedTweaks.speed_settings
  rw [hpr]
  rcases Option.isSome_iff_exists.mp hmn with ⟨bmn, hbmn⟩
  rcases Option.isSome_iff_exists.mp hmx with ⟨bmx, hbmx⟩
  simp only [hle, if_true, hbmn, hbmx, Option.isSome_some]

/-- C10: for every speed 1..=10 and quantizer 0..=255, from_my_preset yields
a partition range (mn, mx) with mn ≤ mx, both in {4, 8, 16, 32, 64}, and
speed_settings therefore cannot panic, for any rav1e preset base. -/
theorem partition_range_valid (speed quantizer : ℕ)
    (hs1 : 1 ≤ speed) (hs2 : speed ≤ 10) (hq : quantizer ≤ 255) :
    ∃ mn mx,
      (SpeedTweaks.from_my_preset speed quantizer).partition_range = some (mn, mx) ∧
      mn ≤ mx ∧ mn ∈ [4, 8, 16, 32, 64] ∧ mx ∈ [4, 8, 16, 32, 64] ∧
      ∀ from_preset : ℕ → SpeedSettings,
        ((SpeedTweaks.from_my_preset speed quantizer).speed_settings
          from_preset).isSome = true := by
  have hpr :
      (SpeedTweaks.from_my_preset speed quantizer).partition_range = some (4, 64) ∨
      (SpeedTweaks.from_my_preset speed quantizer).partition_range = some (4, 32) ∨
      (SpeedTweaks.from_my_preset speed quantizer).partition_range = some (4, 16) ∨
      (SpeedTweaks.from_my_preset speed quantizer).partition_range = some (8, 16) ∨
      (SpeedTweaks.from_my_preset speed quantizer).partition_range = some (16, 16) := by
    unfold SpeedTweaks.from_my_preset
    by_cases hb : quality_to_quantizer 80 < quantizer <;>
      by_cases hlq : quantizer < quality_to_quantizer 55 <;>
        simp only [hb, hlq, decide_True, decide_False, Bool.true_and, Bool.false_and,
          decide_eq_true_eq, and_true, and_false, if_true, if_false] <;>
        split_ifs <;> simp
  rcases hpr with h | h | h | h | h <;>
    exact ⟨_, _, h, by norm_num, by norm_num, by norm_num, fun from_preset =>
      speed_settings_isSome_of_valid _ _ _ _ h (by norm_num) (by rfl) (by rfl)⟩

/-- Closed witness for partition_range_valid at speed 6, quantizer 100. -/
theorem partition_range_valid_witness :
    ∃ mn mx,
      (SpeedTweaks.from_my_preset 6 100).partition_range = some (mn, mx) ∧
      mn ≤ mx ∧ mn ∈ [4, 8, 16, 32, 64] ∧ mx ∈ [4, 8, 16, 32, 64] ∧
      ∀ from_preset : ℕ → SpeedSettings,
        ((SpeedTweaks.from_my_preset 6 100).speed_settings
          from_preset).isSome = true :=
  partition_range_valid 6 100 (by decide) (by decide) (by decide)

/-! ## Plane encoder configuration (encode.rs, Av1EncodeConfig / rav1e_config) -/

inductive PixelRange
  | Limited
  | Full
deriving DecidableEq

inductive ChromaSampling
  | Cs444
  | Cs400
deriving DecidableEq

inductive TransferCharacteristics
  | SRGB
deriving DecidableEq

inductive ColorPrimaries
  | BT709
deriving DecidableEq

inductive MatrixCoefficients
  | BT601
deriving DecidableEq

structure ColorDescription where
  transfer_characteristics : TransferCharacteristics
  color_primaries : ColorPrimaries
  matrix_coefficients : MatrixCoefficients
deriving DecidableEq

/-- Av1EncodeConfig from encode.rs. -/
structure Av1EncodeConfig where
  width : ℕ
  height : ℕ
  bit_depth : ℕ
  quantizer : ℕ
  speed : SpeedTweaks
  threads : ℕ
  pixel_range : PixelRange
  chroma_sampling : ChromaSampling
  color_description : Option ColorDescription
deriving DecidableEq

/-- The subset of rav1e's EncoderConfig that rav1e_config fills in (the
remaining fields are fixed constants such as still_picture = true). -/
structure Config where
  width : ℕ
  height : ℕ
  bit_depth : ℕ
  chroma_sampling : ChromaSampling
  pixel_range : PixelRange
  color_description : Option ColorDescription
  still_picture : Bool
  quantizer : ℕ
  min_quantizer : ℕ
  bitrate : ℕ
  tile_cols : ℕ
  tile_rows : ℕ
  tiles : ℕ
  speed_settings : SpeedSettings
  threads : ℕ

/-- rav1e_config from encode.rs: requests min(threads, area / min_tile_size²)
tiles and otherwise copies the parameters into a still-picture config.  The
speed_settings panic is propagated as none. -/
def rav1e_config (from_preset : ℕ → SpeedSettings) (p : Av1EncodeConfig) :
    Option Config :=
  let tiles := min p.threads (p.width * p.height / p.speed.min_tile_size ^ 2)
  match p.speed.speed_settings from_preset with
  | none => none
  | some ss => some
    { width := p.width
      height := p.height
      bit_depth := p.bit_depth
      chroma_sampling := p.chroma_sampling
      pixel_range := p.pixel_range
      color_description := p.color_description
      still_picture := true
      quantizer := p.quantizer
      min_quantizer := p.quantizer
      bitrate := 0
      tile_cols := 0
      tile_rows := 0
      tiles := tiles
      speed_settings := ss
      threads := p.threads }

/-- C7: the tile count handed to rav1e is exactly the minimum of the thread
budget and image area divided by the squared minimum tile size of the speed
profile. -/
theorem rav1e_config_tiles (from_preset : ℕ → SpeedSettings)
    (p : Av1EncodeConfig) (cfg : Config)
    (h : rav1e_config from_preset p = some cfg) :
    cfg.tiles = min p.threads (p.width * p.height / p.speed.min_tile_size ^ 2) := by
  unfold rav1e_config at h
  rcases hss : p.speed.speed_settings from_preset with _ | ss <;> rw [hss] at h
  · exact absurd h (by simp)
  · cases h
    rfl

/-- A concrete rav1e preset base used only by closed witnesses. -/
def baseSettings : SpeedSettings :=
  { multiref := true
    rdo_lookahead_frames := 40
    scene_detection_mode := SceneDetectionSpeed.standard
    motion_include_near_mvs := true
    fast_deblock := false
    reduced_tx_set := false
    tx_domain_distortion := false
    tx_domain_rate := false
    encode_bottomup := false
    rdo_tx_decision := false
    cdef := true
    lrf := false
    enable_inter_tx_split := false
    sgr_complexity := SGRComplexityLevel.Full
    use_satd_subpel := true
    fine_directional_intra := true
    prediction_modes := PredictionModesSetting.Simple
    partition_range := (BlockSize.BLOCK_4X4, BlockSize.BLOCK_64X64) }

/-- A concrete Av1EncodeConfig used only by closed witnesses. -/
def witnessCfg : Av1EncodeConfig :=
  { width := 64
    height := 64
    bit_depth := 10
    quantizer := 100
    speed := SpeedTweaks.from_my_preset 4 100
    threads := 8
    pixel_range := PixelRange.Full
    chroma_sampling := ChromaSampling.Cs444
    color_description := some
      ⟨TransferCharacteristics.SRGB, ColorPrimaries.BT709, MatrixCoefficients.BT601⟩ }

/-- Closed witness for rav1e_config_tiles on witnessCfg. -/
theorem rav1e_config_tiles_witness :
    ∃ cfg, rav1e_config (fun _ => baseSettings) witnessCfg = some cfg ∧
      cfg.tiles = min witnessCfg.threads
        (witnessCfg.width * witnessCfg.height /
          witnessCfg.speed.min_tile_size ^ 2) := by
  have hpr : witnessCfg.speed.partition_range = some (4, 16) := by
    simp [witnessCfg, SpeedTweaks.from_my_preset]
  have hss := speed_settings_isSome_of_valid witnessCfg.speed
    (fun _ => baseSettings) 4 16 hpr (by norm_num) rfl rfl
  rcases Option.isSome_iff_exists.mp hss with ⟨ss, hs⟩
  have hcfg : ∃ cfg, rav1e_config (fun _ => baseSettings) witnessCfg = some cfg := by
    unfold rav1e_config
    rw [hs]
    exact ⟨_, rfl⟩
  rcases hcfg with ⟨cfg, hcfg⟩
  exact ⟨cfg, hcfg, rav1e_config_tiles _ _ _ hcfg⟩

/-! ## Frame initialization (encode.rs, init_frame_color / init_frame_alpha_pix) -/

/-- The error enum from error.rs. -/
inductive AvifError
  | TooFewPixels
  | UnsupportedMatrixCoeff
deriving DecidableEq

/-- Pulls width samples off the producer to fill one frame row, returning the
row and the remaining producer; none when the producer runs dry mid-row. -/
def fillRow {α : Type} : ℕ → List α → Option (List α × List α)
  | 0, l => some ([], l)
  | _ + 1, [] => none
  | n + 1, x :: l =>
    match fillRow n l with
    | none => none
    | some (row, rest) => some (x :: row, rest)

theorem fillRow_eq_none {α : Type} (n : ℕ) (l : List α) :
    fillRow n l = none ↔ l.length < n := by
  induction n generalizing l with
  | zero => simp [fillRow]
  | succ n ih =>
    cases l with
    | nil => simp [fillRow]
    | cons x l =>
      have hstep : fillRow (n + 1) (x :: l) = none ↔ fillRow n l = none := by
        simp only [fillRow]
        rcases fillRow n l with _ | ⟨row, rest⟩ <;> simp
      rw [hstep, ih l]
      simp [Nat.succ_lt_succ_iff]

theorem fillRow_rest_length {α : Type} (n : ℕ) (l row rest : List α)
    (h : fillRow n l = some (row, rest)) : rest.length = l.length - n := by
  induction n generalizing l row rest with
  | zero =>
    simp only [fillRow, Option.some_inj, Prod.mk.injEq] at h
    rw [← h.2]
    simp
  | succ n ih =>
    cases l with
    | nil => simp [fillRow] at h
    | cons x l =>
      simp only [fillRow] at h
      rcases hr : fillRow n l with _ | ⟨row1, rest1⟩ <;> rw [hr] at h
      · simp at h
      · simp only [Option.some_inj, Prod.mk.injEq] at h
        have h2 := ih l row1 rest1 hr
        rw [← h.2, h2]
        simp only [List.length_cons]
        omega

/-- init_frame_color from encode.rs: fills height rows of width samples per
plane from one interleaved (y, u, v) producer, returning the three filled
planes row by row; a producer running dry yields Error::TooFewPixels. -/
def init_frame_color (width : ℕ) :
    ℕ → List (ℕ × ℕ × ℕ) →
    Except AvifError (List (List ℕ) × List (List ℕ) × List (List ℕ))
  | 0, _ => Except.ok ([], [], [])
  | h + 1, l =>
    match fillRow width l with
    | none => Except.error AvifError.TooFewPixels
    | some (row, rest) =>
      match init_frame_color width h rest with
      | Except.error e => Except.error e
      | Except.ok (ys, us, vs) =>
        Except.ok (row.map (fun px => px.1) :: ys,
          row.map (fun px => px.2.1) :: us,
          row.map (fun px => px.2.2) :: vs)

/-- init_frame_alpha_pix from encode.rs: fills height rows of width samples
of the single monochrome alpha plane. -/
def init_frame_alpha_pix (width : ℕ) :
    ℕ → List ℕ → Except AvifError (List (List ℕ))
  | 0, _ => Except.ok []
  | h + 1, l =>
    match fillRow width l with
    | none => Except.error AvifError.TooFewPixels
    | some (row, rest) =>
      match init_frame_alpha_pix width h rest with
      | Except.error e => Except.error e
      | Except.ok ys => Except.ok (row :: ys)

theorem init_frame_color_too_few (width height : ℕ) (planes : List (ℕ × ℕ × ℕ))
    (h : planes.length < width * height) :
    init_frame_color width height planes = Except.error AvifError.TooFewPixels := by
  induction height generalizing planes with
  | zero => omega
  | succ n ih =>
    unfold init_frame_color
    rcases hr : fillRow width planes with _ | ⟨row, rest⟩
    · rfl
    · have hrest := fillRow_rest_length width planes row rest hr
      have hnot : ¬ planes.length < width := by
        intro hlt
        rw [(fillRow_eq_none width planes).mpr hlt] at hr
        exact Option.noConfusion hr
      have hms : width * (n + 1) = width * n + width := by ring
      have : rest.length < width * n := by
        rw [hrest]
        omega
      simp only [ih rest this]

theorem init_frame_alpha_too_few (width height : ℕ) (planes : List ℕ)
    (h : planes.length < width * height) :
    init_frame_alpha_pix width height planes = Except.error AvifError.TooFewPixels := by
  induction height generalizing planes with
  | zero => omega
  | succ n ih =>
    unfold init_frame_alpha_pix
    rcases hr : fillRow width planes with _ | ⟨row, rest⟩
    · rfl
    · have hrest := fillRow_rest_length width planes row rest hr
      have hnot : ¬ planes.length < width := by
        intro hlt
        rw [(fillRow_eq_none width planes).mpr hlt] at hr
        exact Option.noConfusion hr
      have hms : width * (n + 1) = width * n + width := by ring
      have : rest.length < width * n := by
        rw [hrest]
        omega
      simp only [ih rest this]

/-- C3: a producer yielding fewer than width × height samples makes frame
initialization fail with TooFewPixels, on the color path and on the alpha
path alike. -/
theorem too_few_pixels_contract (width height : ℕ)
    (planes : List (ℕ × ℕ × ℕ)) (alpha : List ℕ)
    (hc : planes.length < width * height)
    (ha : alpha.length < width * height) :
    init_frame_color width height planes = Except.error AvifError.TooFewPixels ∧
      init_frame_alpha_pix width height alpha = Except.error AvifError.TooFewPixels :=
  ⟨init_frame_color_too_few width height planes hc,
    init_frame_alpha_too_few width height alpha ha⟩

/-- Closed witness for too_few_pixels_contract: a 2×2 frame fed 3 color
samples and 2 alpha samples. -/
theorem too_few_pixels_contract_witness :
    init_frame_color 2 2 [(0, 0, 0), (1, 1, 1), (2, 2, 2)] =
        Except.error AvifError.TooFewPixels ∧
      init_frame_alpha_pix 2 2 [255, 255] = Except.error AvifError.TooFewPixels :=
  too_few_pixels_contract 2 2 [(0, 0, 0), (1, 1, 1), (2, 2, 2)] [255, 255]
    (by decide) (by decide)

/-! ## Image loading (image_file.rs, ImageFile::load_image_data_from_reader) -/

/-- A decoded bitmap: dimensions, flat RGBA samples, and whether the decoded
color type declares an alpha channel. -/
structure Bitmap where
  width : ℕ
  height : ℕ
  pixels : List Rgba
  hasAlpha : Bool
deriving DecidableEq

/-- Load failures surfaced by load_image_data_from_reader, after a
successful decode.  widthTooSmall is the bail!("Image width too small for
encode!") branch. -/
inductive LoadError
  | widthTooSmall
deriving DecidableEq

/-- ImageFile::load_image_data_from_reader from image_file.rs, modelled after
the decode step succeeded.  overlay_black stands for the external image-crate
compositing of the bitmap over an opaque black canvas of the same size (its
result declares an alpha channel, as DynamicImage::ImageRgba8 does).  The
PNG branch checks the width once; the generic branch checks it (and runs the
remove-alpha overlay) twice, exactly as in the source.  No branch ever
inspects the height. -/
def load_image_data_from_reader (overlay_black : Bitmap → Bitmap)
    (isPng : Bool) (raw : Bitmap) (remove_alpha : Bool) :
    Except LoadError Bitmap :=
  if isPng then
    if raw.width < 32 then Except.error LoadError.widthTooSmall
    else if remove_alpha && raw.hasAlpha then Except.ok (overlay_black raw)
    else Except.ok raw
  else
    if raw.width < 32 then Except.error LoadError.widthTooSmall
    else
      let raw1 := if remove_alpha && raw.hasAlpha then overlay_black raw else raw
      if raw1.width < 32 then Except.error LoadError.widthTooSmall
      else if remove_alpha && raw1.hasAlpha then Except.ok (overlay_black raw1)
      else Except.ok raw1

/-- C5: a decoded bitmap with width < 32 is always rejected with the
width-too-small error, whatever its height, pixels, alpha flag, format
branch, remove-alpha flag, or overlay collaborator. -/
theorem width_too_small_rejected (overlay_black : Bitmap → Bitmap)
    (isPng : Bool) (raw : Bitmap) (remove_alpha : Bool)
    (h : raw.width < 32) :
    load_image_data_from_reader overlay_black isPng raw remove_alpha =
      Except.error LoadError.widthTooSmall := by
  unfold load_image_data_from_reader
  rcases isPng <;> simp [h]

/-- Closed witness for width_too_small_rejected: a 31×64 bitmap. -/
theorem width_too_small_rejected_witness :
    load_image_data_from_reader (fun b => b) false ⟨31, 64, [], false⟩ false =
      Except.error LoadError.widthTooSmall :=
  width_too_small_rejected (fun b => b) false ⟨31, 64, [], false⟩ false
    (by decide)

/-- C6 counterexample: the loader never checks the height.  A 32×1 bitmap
(height far below 32) loads successfully instead of failing. -/
theorem height_not_checked_counterexample :
    load_image_data_from_reader (fun b => b) false ⟨32, 1, [], false⟩ false =
      Except.ok ⟨32, 1, [], false⟩ := by
  rfl

/-- C6 amended: only the width is enforced.  For any overlay collaborator
that preserves the bitmap's width, loading succeeds exactly when the width
is at least 32 — the height is never inspected, so height < 32 alone never
causes a failure. -/
theorem load_succeeds_iff_width_ok (overlay_black : Bitmap → Bitmap)
    (hov : ∀ b, (overlay_black b).width = b.width)
    (isPng : Bool) (raw : Bitmap) (remove_alpha : Bool) :
    (∃ b, load_image_data_from_reader overlay_black isPng raw remove_alpha =
      Except.ok b) ↔ 32 ≤ raw.width := by
  unfold load_image_data_from_reader
  have h1 := hov raw
  rcases isPng <;> split_ifs <;> simp_all <;>
    first
    | omega
    | (rw [if_neg (by omega)]
       split <;> simp_all)

/-- Closed witness for load_succeeds_iff_width_ok at a 40×8 bitmap. -/
theorem load_succeeds_iff_width_ok_witness :
    (∃ b, load_image_data_from_reader (fun b => b) false ⟨40, 8, [], false⟩ false =
      Except.ok b) ↔ 32 ≤ (40 : ℕ) :=
  load_succeeds_iff_width_ok (fun b => b) (fun _ => rfl) false
    ⟨40, 8, [], false⟩ false

/-! ## Colorspace conversion (encode.rs, rgb_to_ycbcr and friends) -/

/-- rgb_to_ycbcr from encode.rs over ℚ: BT.601 luma coefficients scaled to
the target depth's full range, chroma offset by the rounded half maximum,
all three outputs rounded to nearest (f32::round rounds half away from zero,
which agrees with Mathlib's round on the non-negative values produced
here). -/
def rgb_to_ycbcr (px : Rgb) (depth : ℕ) : ℤ × ℤ × ℤ :=
  let m0 : ℚ := 2990 / 10000
  let m1 : ℚ := 5870 / 10000
  let m2 : ℚ := 1140 / 10000
  let max_value : ℚ := ((2 ^ depth - 1 : ℕ) : ℚ)
  let scale : ℚ := max_value / 255
  let shift : ℚ := ((round (max_value * (1 / 2)) : ℤ) : ℚ)
  let y : ℚ := scale * m0 * px.r + scale * m1 * px.g + scale * m2 * px.b
  let cb : ℚ := (px.b * scale - y) * ((1 / 2) / (1 - m2)) + shift
  let cr : ℚ := (px.r * scale - y) * ((1 / 2) / (1 - m0)) + shift
  (round y, round cb, round cr)

/-- Rust `as u8` on an f32 value: saturating cast into 0..=255. -/
def u8_cast (n : ℤ) : ℕ :=
  (max 0 (min 255 n)).toNat

/-- Rust `as u16` on an f32 value: saturating cast into 0..=65535. -/
def u16_cast (n : ℤ) : ℕ :=
  (max 0 (min 65535 n)).toNat

/-- rgb_to_8_bit_ycbcr from encode.rs. -/
def rgb_to_8_bit_ycbcr (px : Rgb) : ℕ × ℕ × ℕ :=
  let t := rgb_to_ycbcr px 8
  (u8_cast t.1, u8_cast t.2.1, u8_cast t.2.2)

/-- rgb_to_10_bit_ycbcr from encode.rs. -/
def rgb_to_10_bit_ycbcr (px : Rgb) : ℕ × ℕ × ℕ :=
  let t := rgb_to_ycbcr px 10
  (u16_cast t.1, u16_cast t.2.1, u16_cast t.2.2)

/-! ## Encoder facade (encode.rs, Encoder::encode and the encode_* chain) -/

/-- Encoder from encode.rs (the builder's final state). -/
structure Encoder where
  quantizer : ℕ
  alpha_quantizer : ℕ
  speed : ℕ
  threads : ℕ
deriving DecidableEq

/-- EncodedImage from encode.rs. -/
structure EncodedImage where
  avif_file : List ℕ
  color_byte_size : ℕ
  alpha_byte_size : ℕ
deriving DecidableEq

/-- The external collaborators of the encoding core, universally quantified
in every theorem about the facade: the rav1e AV1 payload production for a
color frame and for a monochrome alpha frame, the avif-serialize container
packager (matrix coefficients and premultiplied-alpha flag first), and
blurred_dirty_alpha from the alpha module, which is declared in encode.rs
but whose source file is absent from the sources (per the spec it returns
either none, keeping the buffer, or a smoothed copy). -/
structure Externals where
  av1_encode_color :
    Av1EncodeConfig → List (List ℕ) × List (List ℕ) × List (List ℕ) → List ℕ
  av1_encode_alpha : Av1EncodeConfig → List (List ℕ) → List ℕ
  avif_serialize :
    MatrixCoefficients → Bool → List ℕ → Option (List ℕ) → ℕ → ℕ → ℕ → List ℕ
  blurred_dirty_alpha : ℕ → ℕ → List Rgba → Option (List Rgba)

/-- encode_to_av1 from encode.rs on the color path: initialize the frame
from the producer (propagating TooFewPixels), then hand it to the codec. -/
def encode_to_av1_color (X : Externals) (p : Av1EncodeConfig)
    (planes : List (ℕ × ℕ × ℕ)) : Except AvifError (List ℕ) :=
  match init_frame_color p.width p.height planes with
  | Except.error e => Except.error e
  | Except.ok frame => Except.ok (X.av1_encode_color p frame)

/-- encode_to_av1 from encode.rs on the alpha path. -/
def encode_to_av1_alpha (X : Externals) (p : Av1EncodeConfig)
    (alpha : List ℕ) : Except AvifError (List ℕ) :=
  match init_frame_alpha_pix p.width p.height alpha with
  | Except.error e => Except.error e
  | Except.ok frame => Except.ok (X.av1_encode_alpha p frame)

/-- Encoder::encode_raw_planes from encode.rs: encode the color plane-set,
optionally the alpha plane-set, then serialize both payloads into the AVIF
container, reporting the payload byte sizes. -/
def Encoder.encode_raw_planes (X : Externals) (e : Encoder)
    (width height : ℕ) (planes : List (ℕ × ℕ × ℕ)) (alpha : Option (List ℕ))
    (color_pixel_range : PixelRange) (bit_depth : ℕ) :
    Except AvifError EncodedImage :=
  let color_description : Option ColorDescription := some
    ⟨TransferCharacteristics.SRGB, ColorPrimaries.BT709, MatrixCoefficients.BT601⟩
  let color := encode_to_av1_color X
    { width := width, height := height, bit_depth := bit_depth,
      quantizer := e.quantizer,
      speed := SpeedTweaks.from_my_preset e.speed e.quantizer,
      threads := e.threads, pixel_range := color_pixel_range,
      chroma_sampling := ChromaSampling.Cs444,
      color_description := color_description } planes
  let alphaRes := alpha.map (fun al => encode_to_av1_alpha X
    { width := width, height := height, bit_depth := bit_depth,
      quantizer := e.alpha_quantizer,
      speed := SpeedTweaks.from_my_preset e.speed e.alpha_quantizer,
      threads := e.threads, pixel_range := PixelRange.Full,
      chroma_sampling := ChromaSampling.Cs400,
      color_description := none } al)
  match color with
  | Except.error err => Except.error err
  | Except.ok c =>
    match alphaRes with
    | none => Except.ok
        ⟨X.avif_serialize MatrixCoefficients.BT601 false c none
          width height bit_depth, c.length, 0⟩
    | some (Except.error err) => Except.error err
    | some (Except.ok a) => Except.ok
        ⟨X.avif_serialize MatrixCoefficients.BT601 false c (some a)
          width height bit_depth, c.length, a.length⟩

/-- DynamicImage::to_rgba8: the stored samples, with an opaque alpha channel
synthesized when the color type has none. -/
def Bitmap.to_rgba8 (bm : Bitmap) : List Rgba :=
  if bm.hasAlpha then bm.pixels
  else bm.pixels.map (fun px => ⟨px.r, px.g, px.b, 255⟩)

/-- DynamicImage::to_rgb8: the stored samples with alpha dropped. -/
def Bitmap.to_rgb8 (bm : Bitmap) : List Rgb :=
  bm.pixels.map Rgba.rgb

/-- Encoder::encode_rgba from encode.rs: condition the alpha-adjacent color
data through blurred_dirty_alpha, convert to 8-bit YCbCr plus raw alpha, and
encode both plane-sets at depth 8. -/
def Encoder.encode_rgba (X : Externals) (e : Encoder) (width height : ℕ)
    (in_buffer : List Rgba) : Except AvifError EncodedImage :=
  let buffer := (X.blurred_dirty_alpha width height in_buffer).getD in_buffer
  let planes := buffer.map (fun px => rgb_to_8_bit_ycbcr px.rgb)
  let alpha := buffer.map (fun px => px.a)
  Encoder.encode_raw_planes X e width height planes (some alpha)
    PixelRange.Full 8

/-- Encoder::encode_rgb / encode_rgb_internal from encode.rs: convert to
10-bit YCbCr and encode the color plane-set only, at depth 10. -/
def Encoder.encode_rgb (X : Externals) (e : Encoder) (width height : ℕ)
    (pixels : List Rgb) : Except AvifError EncodedImage :=
  Encoder.encode_raw_planes X e width height
    (pixels.map rgb_to_10_bit_ycbcr) none PixelRange.Full 10

/-- Encoder::encode from encode.rs: when the bitmap declares alpha and the
transparency scan finds a non-opaque sample, take the RGBA path; otherwise
strip alpha and take the RGB path.  off is the as_simd alignment offset of
the scanned buffer. -/
def Encoder.encode (X : Externals) (off : ℕ) (e : Encoder) (img : Bitmap) :
    Except AvifError EncodedImage :=
  if img.hasAlpha = true then
    if check_transparent_pixel off img.to_rgba8 = false then
      Encoder.encode_rgba X e img.width img.height img.to_rgba8
    else
      Encoder.encode_rgb X e img.width img.height img.to_rgb8
  else
    Encoder.encode_rgb X e img.width img.height img.to_rgb8

theorem chunksOf32_mem_replicate (n : ℕ) (l : List ℕ) (hn : 32 * n ≤ l.length)
    (hall : ∀ x ∈ l, x = 255) :
    ∀ c ∈ chunksOf32 n l, c = List.replicate 32 255 := by
  induction n generalizing l with
  | zero => simp [chunksOf32]
  | succ n ih =>
    intro c hc
    simp only [chunksOf32, List.mem_cons] at hc
    rcases hc with rfl | hc
    · refine List.eq_replicate_iff.mpr ⟨?_, ?_⟩
      · simp only [List.length_take]
        omega
      · intro b hb
        exact hall b (List.mem_of_mem_take hb)
    · refine ih (l.drop 32) ?_ ?_ c hc
      · simp only [List.length_drop]
        omega
      · intro b hb
        exact hall b (List.mem_of_mem_drop hb)

/-- With a uniformly opaque alpha channel every inspected SIMD block equals
the all-255 mask, so the scan reports fully opaque for any alignment. -/
theorem check_transparent_pixel_of_opaque (off : ℕ) (image : List Rgba)
    (h : ∀ px ∈ image, px.a = 255) :
    check_transparent_pixel off image = true := by
  unfold check_transparent_pixel as_simd
  rw [List.all_eq_true]
  intro chunk hchunk
  have hall : ∀ x ∈ (image.map (fun pixel => pixel.a)).drop
      (min off (image.map (fun pixel => pixel.a)).length), x = 255 := by
    intro x hx
    rcases List.mem_map.mp (List.mem_of_mem_drop hx) with ⟨px, hpx, rfl⟩
    exact h px hpx
  have := chunksOf32_mem_replicate _ _ (Nat.mul_div_le _ 32) hall chunk hchunk
  rw [this]
  simp

/-- The RGB path never emits an alpha payload: a successful encode_rgb
reports alpha_byte_size 0. -/
theorem encode_rgb_no_alpha_payload (X : Externals) (e : Encoder)
    (width height : ℕ) (pixels : List Rgb) (enc : EncodedImage)
    (h : Encoder.encode_rgb X e width height pixels = Except.ok enc) :
    enc.alpha_byte_size = 0 := by
  unfold Encoder.encode_rgb Encoder.encode_raw_planes at h
  dsimp only at h
  split at h
  · exact absurd h (by simp)
  · simp only [Option.map_none', Except.ok.injEq] at h
    rw [← h]

/-- C4: a bitmap declaring alpha whose alpha samples are uniformly 255 is
encoded byte-identically to the same bitmap with the alpha channel
stripped — both take the 3-channel RGB path with the same quality, speed
and thread configuration — and no alpha payload is emitted on success. -/
theorem opaque_fast_path_equivalence (X : Externals) (off : ℕ) (e : Encoder)
    (img : Bitmap) (hA : img.hasAlpha = true)
    (hop : ∀ px ∈ img.pixels, px.a = 255) :
    Encoder.encode X off e img =
      Encoder.encode X off e { img with hasAlpha := false } ∧
    ∀ enc, Encoder.encode X off e img = Except.ok enc →
      enc.alpha_byte_size = 0 := by
  have hop8 : ∀ px ∈ img.to_rgba8, px.a = 255 := by
    unfold Bitmap.to_rgba8
    rw [hA]
    simpa using hop
  have hchk := check_transparent_pixel_of_opaque off img.to_rgba8 hop8
  have henc : Encoder.encode X off e img =
      Encoder.encode_rgb X e img.width img.height img.to_rgb8 := by
    unfold Encoder.encode
    rw [hA, hchk]
    simp
  have henc2 : Encoder.encode X off e { img with hasAlpha := false } =
      Encoder.encode_rgb X e img.width img.height img.to_rgb8 := by
    unfold Encoder.encode
    simp [Bitmap.to_rgb8]
  refine ⟨by rw [henc, henc2], fun enc h => ?_⟩
  rw [henc] at h
  exact encode_rgb_no_alpha_payload X e _ _ _ enc h

/-- Trivial external collaborators used only by closed witnesses. -/
def witnessExternals : Externals :=
  { av1_encode_color := fun _ _ => []
    av1_encode_alpha := fun _ _ => []
    avif_serialize := fun _ _ _ _ _ _ _ => []
    blurred_dirty_alpha := fun _ _ _ => none }

/-- A 1×1 fully opaque bitmap declaring an alpha channel, for witnesses. -/
def witnessImage : Bitmap :=
  ⟨1, 1, [⟨9, 8, 7, 255⟩], true⟩

/-- Closed witness for opaque_fast_path_equivalence on witnessImage. -/
theorem opaque_fast_path_equivalence_witness :
    Encoder.encode witnessExternals 0 ⟨121, 121, 4, 8⟩ witnessImage =
      Encoder.encode witnessExternals 0 ⟨121, 121, 4, 8⟩
        { witnessImage with hasAlpha := false } ∧
    ∀ enc, Encoder.encode witnessExternals 0 ⟨121, 121, 4, 8⟩ witnessImage =
      Except.ok enc → enc.alpha_byte_size = 0 :=
  opaque_fast_path_equivalence witnessExternals 0 ⟨121, 121, 4, 8⟩
    witnessImage rfl (by decide)

/-! ## Colorspace round trip (C9) -/

/-- Modelled from the spec: the inverse BT.601 transform used by the
round-trip property ("converting ... then applying the inverse BT.601
transform"), which no source function implements.  It inverts rgb_to_ycbcr
at depth 8: r = y + (cr − 128)·(1 − m0)/½, b = y + (cb − 128)·(1 − m2)/½,
g = (y − m0·r − m2·b)/m1, each rounded to nearest. -/
def ycbcr_to_rgb (t : ℤ × ℤ × ℤ) : ℤ × ℤ × ℤ :=
  let m0 : ℚ := 2990 / 10000
  let m1 : ℚ := 5870 / 10000
  let m2 : ℚ := 1140 / 10000
  let y : ℚ := (t.1 : ℚ)
  let cb : ℚ := (t.2.1 : ℚ)
  let cr : ℚ := (t.2.2 : ℚ)
  let r : ℚ := y + (cr - 128) * ((1 - m0) / (1 / 2))
  let b : ℚ := y + (cb - 128) * ((1 - m2) / (1 / 2))
  let g : ℚ := (y - m0 * r - m2 * b) / m1
  (round r, round g, round b)

theorem fwd_y (r g b : ℕ) :
    (rgb_to_ycbcr ⟨r, g, b⟩ 8).1 =
      round ((2990 / 10000 : ℚ) * r + 5870 / 10000 * g + 1140 / 10000 * b) := by
  simp only [rgb_to_ycbcr]
  congr 1
  norm_num

theorem fwd_cb (r g b : ℕ) :
    (rgb_to_ycbcr ⟨r, g, b⟩ 8).2.1 =
      round (((b : ℚ) - ((2990 / 10000 : ℚ) * r + 5870 / 10000 * g + 1140 / 10000 * b))
          * ((1 / 2) / (1 - 1140 / 10000)) + 128) := by
  simp only [rgb_to_ycbcr]
  congr 1
  have hshift : round (((2 ^ 8 - 1 : ℕ) : ℚ) * (1 / 2)) = 128 := by
    rw [round_eq]
    norm_num
  rw [hshift]
  norm_num

theorem fwd_cr (r g b : ℕ) :
    (rgb_to_ycbcr ⟨r, g, b⟩ 8).2.2 =
      round (((r : ℚ) - ((2990 / 10000 : ℚ) * r + 5870 / 10000 * g + 1140 / 10000 * b))
          * ((1 / 2) / (1 - 2990 / 10000)) + 128) := by
  simp only [rgb_to_ycbcr]
  congr 1
  have hshift : round (((2 ^ 8 - 1 : ℕ) : ℚ) * (1 / 2)) = 128 := by
    rw [round_eq]
    norm_num
  rw [hshift]
  norm_num

theorem inv_parts (t : ℤ × ℤ × ℤ) :
    ycbcr_to_rgb t =
      (round (((t.1 : ℤ) : ℚ) + (((t.2.2 : ℤ) : ℚ) - 128) * ((1 - 2990 / 10000) / (1 / 2))),
       round ((((t.1 : ℤ) : ℚ)
          - 2990 / 10000 * (((t.1 : ℤ) : ℚ) + (((t.2.2 : ℤ) : ℚ) - 128) * ((1 - 2990 / 10000) / (1 / 2)))
          - 1140 / 10000 * (((t.1 : ℤ) : ℚ) + (((t.2.1 : ℤ) : ℚ) - 128) * ((1 - 1140 / 10000) / (1 / 2))))
          / (5870 / 10000)),
       round (((t.1 : ℤ) : ℚ) + (((t.2.1 : ℤ) : ℚ) - 128) * ((1 - 1140 / 10000) / (1 / 2)))) := by
  simp only [ycbcr_to_rgb]

theorem chan_r_bound (rq yq crq : ℚ) (Y CR : ℤ)
    (hY : Y = round yq) (hCR : CR = round crq)
    (hcr : crq = (rq - yq) * ((1 / 2) / (1 - 2990 / 10000)) + 128) :
    |((round ((Y : ℚ) + ((CR : ℚ) - 128) * ((1 - 2990 / 10000 : ℚ) / (1 / 2))) : ℤ) : ℚ) - rq| ≤ 2 := by
  set rr : ℚ := (Y : ℚ) + ((CR : ℚ) - 128) * ((1 - 2990 / 10000 : ℚ) / (1 / 2)) with hrr
  have e0 : |(Y : ℚ) - yq| ≤ 1 / 2 := by
    rw [hY, abs_sub_comm]
    exact abs_sub_round yq
  have e2 : |(CR : ℚ) - crq| ≤ 1 / 2 := by
    rw [hCR, abs_sub_comm]
    exact abs_sub_round crq
  have hid : rr - rq = ((Y : ℚ) - yq) + ((CR : ℚ) - crq) * (701 / 500) := by
    rw [hrr, hcr]
    ring
  have habs : |((CR : ℚ) - crq) * (701 / 500)| = |(CR : ℚ) - crq| * (701 / 500) := by
    rw [abs_mul]
    norm_num
  have hb1 : |rr - rq| ≤ 1201 / 1000 := by
    rw [hid]
    calc |((Y : ℚ) - yq) + ((CR : ℚ) - crq) * (701 / 500)|
        ≤ |(Y : ℚ) - yq| + |((CR : ℚ) - crq) * (701 / 500)| := abs_add _ _
      _ ≤ 1 / 2 + (1 / 2) * (701 / 500) := by
          rw [habs]
          have hmul : |(CR : ℚ) - crq| * (701 / 500) ≤ (1 / 2) * (701 / 500) := by
            apply mul_le_mul_of_nonneg_right e2
            norm_num
          linarith
      _ = 1201 / 1000 := by norm_num
  have hrnd : |((round rr : ℤ) : ℚ) - rr| ≤ 1 / 2 := by
    rw [abs_sub_comm]
    exact abs_sub_round rr
  calc |((round rr : ℤ) : ℚ) - rq|
      = |(((round rr : ℤ) : ℚ) - rr) + (rr - rq)| := by ring_nf
    _ ≤ |((round rr : ℤ) : ℚ) - rr| + |rr - rq| := abs_add _ _
    _ ≤ 1 / 2 + 1201 / 1000 := by linarith
    _ ≤ 2 := by norm_num

theorem chan_b_bound (bq yq cbq : ℚ) (Y CB : ℤ)
    (hY : Y = round yq) (hCB : CB = round cbq)
    (hcb : cbq = (bq - yq) * ((1 / 2) / (1 - 1140 / 10000)) + 128) :
    |((round ((Y : ℚ) + ((CB : ℚ) - 128) * ((1 - 1140 / 10000 : ℚ) / (1 / 2))) : ℤ) : ℚ) - bq| ≤ 2 := by
  set bb : ℚ := (Y : ℚ) + ((CB : ℚ) - 128) * ((1 - 1140 / 10000 : ℚ) / (1 / 2)) with hbb
  have e0 : |(Y : ℚ) - yq| ≤ 1 / 2 := by
    rw [hY, abs_sub_comm]
    exact abs_sub_round yq
  have e1 : |(CB : ℚ) - cbq| ≤ 1 / 2 := by
    rw [hCB, abs_sub_comm]
    exact abs_sub_round cbq
  have hid : bb - bq = ((Y : ℚ) - yq) + ((CB : ℚ) - cbq) * (443 / 250) := by
    rw [hbb, hcb]
    ring
  have habs : |((CB : ℚ) - cbq) * (443 / 250)| = |(CB : ℚ) - cbq| * (443 / 250) := by
    rw [abs_mul]
    norm_num
  have hb1 : |bb - bq| ≤ 693 / 500 := by
    rw [hid]
    calc |((Y : ℚ) - yq) + ((CB : ℚ) - cbq) * (443 / 250)|
        ≤ |(Y : ℚ) - yq| + |((CB : ℚ) - cbq) * (443 / 250)| := abs_add _ _
      _ ≤ 1 / 2 + (1 / 2) * (443 / 250) := by
          rw [habs]
          have hmul : |(CB : ℚ) - cbq| * (443 / 250) ≤ (1 / 2) * (443 / 250) := by
            apply mul_le_mul_of_nonneg_right e1
            norm_num
          linarith
      _ = 693 / 500 := by norm_num
  have hrnd : |((round bb : ℤ) : ℚ) - bb| ≤ 1 / 2 := by
    rw [abs_sub_comm]
    exact abs_sub_round bb
  calc |((round bb : ℤ) : ℚ) - bq|
      = |(((round bb : ℤ) : ℚ) - bb) + (bb - bq)| := by ring_nf
    _ ≤ |((round bb : ℤ) : ℚ) - bb| + |bb - bq| := abs_add _ _
    _ ≤ 1 / 2 + 693 / 500 := by linarith
    _ ≤ 2 := by norm_num

theorem chan_g_bound (rq gq bq yq cbq crq : ℚ) (Y CB CR : ℤ)
    (hY : Y = round yq) (hCB : CB = round cbq) (hCR : CR = round crq)
    (hy : yq = 2990 / 10000 * rq + 5870 / 10000 * gq + 1140 / 10000 * bq)
    (hcb : cbq = (bq - yq) * ((1 / 2) / (1 - 1140 / 10000)) + 128)
    (hcr : crq = (rq - yq) * ((1 / 2) / (1 - 2990 / 10000)) + 128) :
    |((round (((Y : ℚ)
        - 2990 / 10000 * ((Y : ℚ) + ((CR : ℚ) - 128) * ((1 - 2990 / 10000) / (1 / 2)))
        - 1140 / 10000 * ((Y : ℚ) + ((CB : ℚ) - 128) * ((1 - 1140 / 10000) / (1 / 2))))
        / (5870 / 10000)) : ℤ) : ℚ) - gq| ≤ 2 := by
  set gg : ℚ := ((Y : ℚ)
      - 2990 / 10000 * ((Y : ℚ) + ((CR : ℚ) - 128) * ((1 - 2990 / 10000) / (1 / 2)))
      - 1140 / 10000 * ((Y : ℚ) + ((CB : ℚ) - 128) * ((1 - 1140 / 10000) / (1 / 2))))
      / (5870 / 10000) with hgg
  have e0 : |(Y : ℚ) - yq| ≤ 1 / 2 := by
    rw [hY, abs_sub_comm]
    exact abs_sub_round yq
  have e1 : |(CB : ℚ) - cbq| ≤ 1 / 2 := by
    rw [hCB, abs_sub_comm]
    exact abs_sub_round cbq
  have e2 : |(CR : ℚ) - crq| ≤ 1 / 2 := by
    rw [hCR, abs_sub_comm]
    exact abs_sub_round crq
  have hid : gg - gq = ((Y : ℚ) - yq)
      - 419198 / 587000 * ((CR : ℚ) - crq)
      - 202008 / 587000 * ((CB : ℚ) - cbq) := by
    rw [hgg, hcr, hcb, hy]
    ring
  have habs2 : |419198 / 587000 * ((CR : ℚ) - crq)| = 419198 / 587000 * |(CR : ℚ) - crq| := by
    rw [abs_mul]
    norm_num
  have habs1 : |202008 / 587000 * ((CB : ℚ) - cbq)| = 202008 / 587000 * |(CB : ℚ) - cbq| := by
    rw [abs_mul]
    norm_num
  have hb1 : |gg - gq| ≤ 1208206 / 1174000 := by
    rw [hid]
    have t1 : |((Y : ℚ) - yq) - 419198 / 587000 * ((CR : ℚ) - crq)
        - 202008 / 587000 * ((CB : ℚ) - cbq)|
        ≤ |(Y : ℚ) - yq| + |419198 / 587000 * ((CR : ℚ) - crq)|
          + |202008 / 587000 * ((CB : ℚ) - cbq)| := by
      calc |((Y : ℚ) - yq) - 419198 / 587000 * ((CR : ℚ) - crq)
          - 202008 / 587000 * ((CB : ℚ) - cbq)|
          ≤ |((Y : ℚ) - yq) - 419198 / 587000 * ((CR : ℚ) - crq)|
            + |202008 / 587000 * ((CB : ℚ) - cbq)| := abs_sub _ _
        _ ≤ |(Y : ℚ) - yq| + |419198 / 587000 * ((CR : ℚ) - crq)|
            + |202008 / 587000 * ((CB : ℚ) - cbq)| := by
              have habss := abs_sub ((Y : ℚ) - yq) (419198 / 587000 * ((CR : ℚ) - crq))
              linarith
    rw [habs1, habs2] at t1
    have c2 : 419198 / 587000 * |(CR : ℚ) - crq| ≤ 419198 / 587000 * (1 / 2) := by
      apply mul_le_mul_of_nonneg_left e2
      norm_num
    have c1 : 202008 / 587000 * |(CB : ℚ) - cbq| ≤ 202008 / 587000 * (1 / 2) := by
      apply mul_le_mul_of_nonneg_left e1
      norm_num
    calc |((Y : ℚ) - yq) - 419198 / 587000 * ((CR : ℚ) - crq)
        - 202008 / 587000 * ((CB : ℚ) - cbq)|
        ≤ |(Y : ℚ) - yq| + 419198 / 587000 * |(CR : ℚ) - crq|
          + 202008 / 587000 * |(CB : ℚ) - cbq| := t1
      _ ≤ 1 / 2 + 419198 / 587000 * (1 / 2) + 202008 / 587000 * (1 / 2) := by linarith
      _ = 1208206 / 1174000 := by norm_num
  have hrnd : |((round gg : ℤ) : ℚ) - gg| ≤ 1 / 2 := by
    rw [abs_sub_comm]
    exact abs_sub_round gg
  calc |((round gg : ℤ) : ℚ) - gq|
      = |(((round gg : ℤ) : ℚ) - gg) + (gg - gq)| := by ring_nf
    _ ≤ |((round gg : ℤ) : ℚ) - gg| + |gg - gq| := abs_add _ _
    _ ≤ 1 / 2 + 1208206 / 1174000 := by linarith
    _ ≤ 2 := by norm_num

/-- C9: converting any 8-bit RGB triple to YCbCr at depth 8 and back through
the inverse BT.601 transform changes every channel by at most 2. -/
theorem colorspace_roundtrip (r g b : ℕ)
    (hr : r ≤ 255) (hg : g ≤ 255) (hb : b ≤ 255) :
    |(ycbcr_to_rgb (rgb_to_ycbcr ⟨r, g, b⟩ 8)).1 - (r : ℤ)| ≤ 2 ∧
    |(ycbcr_to_rgb (rgb_to_ycbcr ⟨r, g, b⟩ 8)).2.1 - (g : ℤ)| ≤ 2 ∧
    |(ycbcr_to_rgb (rgb_to_ycbcr ⟨r, g, b⟩ 8)).2.2 - (b : ℤ)| ≤ 2 := by
  rw [inv_parts (rgb_to_ycbcr ⟨r, g, b⟩ 8)]
  refine ⟨?_, ?_, ?_⟩
  · have hq := chan_r_bound (r : ℚ)
      ((2990 / 10000 : ℚ) * r + 5870 / 10000 * g + 1140 / 10000 * b)
      (((r : ℚ) - ((2990 / 10000 : ℚ) * r + 5870 / 10000 * g + 1140 / 10000 * b))
        * ((1 / 2) / (1 - 2990 / 10000)) + 128)
      (rgb_to_ycbcr ⟨r, g, b⟩ 8).1 (rgb_to_ycbcr ⟨r, g, b⟩ 8).2.2
      (fwd_y r g b) (fwd_cr r g b) rfl
    exact_mod_cast hq
  · have hq := chan_g_bound (r : ℚ) (g : ℚ) (b : ℚ)
      ((2990 / 10000 : ℚ) * r + 5870 / 10000 * g + 1140 / 10000 * b)
      (((b : ℚ) - ((2990 / 10000 : ℚ) * r + 5870 / 10000 * g + 1140 / 10000 * b))
        * ((1 / 2) / (1 - 1140 / 10000)) + 128)
      (((r : ℚ) - ((2990 / 10000 : ℚ) * r + 5870 / 10000 * g + 1140 / 10000 * b))
        * ((1 / 2) / (1 - 2990 / 10000)) + 128)
      (rgb_to_ycbcr ⟨r, g, b⟩ 8).1 (rgb_to_ycbcr ⟨r, g, b⟩ 8).2.1
      (rgb_to_ycbcr ⟨r, g, b⟩ 8).2.2
      (fwd_y r g b) (fwd_cb r g b) (fwd_cr r g b) rfl rfl rfl
    exact_mod_cast hq
  · have hq := chan_b_bound (b : ℚ)
      ((2990 / 10000 : ℚ) * r + 5870 / 10000 * g + 1140 / 10000 * b)
      (((b : ℚ) - ((2990 / 10000 : ℚ) * r + 5870 / 10000 * g + 1140 / 10000 * b))
        * ((1 / 2) / (1 - 1140 / 10000)) + 128)
      (rgb_to_ycbcr ⟨r, g, b⟩ 8).1 (rgb_to_ycbcr ⟨r, g, b⟩ 8).2.1
      (fwd_y r g b) (fwd_cb r g b) rfl
    exact_mod_cast hq

/-- Closed witness for colorspace_roundtrip at (200, 100, 50). -/
theorem colorspace_roundtrip_witness :
    |(ycbcr_to_rgb (rgb_to_ycbcr ⟨200, 100, 50⟩ 8)).1 - (200 : ℤ)| ≤ 2 ∧
    |(ycbcr_to_rgb (rgb_to_ycbcr ⟨200, 100, 50⟩ 8)).2.1 - (100 : ℤ)| ≤ 2 ∧
    |(ycbcr_to_rgb (rgb_to_ycbcr ⟨200, 100, 50⟩ 8)).2.2 - (50 : ℤ)| ≤ 2 := by
  have h := colorspace_roundtrip 200 100 50 (by norm_num) (by norm_num) (by norm_num)
  exact_mod_cast h

end AvifConverter
